import Mathlib

/-!
Verification of the uniform range sampler in `rng_quantique.py`.

The embedding models:
- `bitLength` — Python's `int.bit_length` on a natural number;
- `range_size`, `num_qubits` — the quantities computed at the top of
  `generator_quantum_number`;
- `genAux` / `generator_quantum_number` — the recursive rejection-sampling
  loop, with the quantum bit source made explicit as a list of draws; a draw
  is `Except.ok v` (the integer decoded from the measured bit string) or
  `Except.error e` (the simulator raised exception `e`);
- `benchmark` — the sampling loop of the benchmark function;
- `mainRun` — the `__main__` block: argument validation, the image /
  benchmark / single-generation paths, and the resulting process exit code.
-/

/-- Fuel-driven helper for `bitLength`: `bitLengthGo fuel m` halves `m`
until it reaches `0`, counting the steps; `fuel ≥ m` is enough fuel. -/
def bitLengthGo : Nat → Nat → Nat
  | _, 0 => 0
  | 0, _ + 1 => 0
  | fuel + 1, m + 1 => bitLengthGo fuel ((m + 1) / 2) + 1

/-- Python's `int.bit_length` on a natural number: `0 → 0`, and for `n ≥ 1`
the number of binary digits of `n`, i.e. `⌊log₂ n⌋ + 1`. -/
def bitLength (n : Nat) : Nat := bitLengthGo n n

/-- The spec's bit width: `ceil(log2 n)`, the smallest `k` with `2 ^ k ≥ n`
(for `n ≥ 1`), written through `bitLength` of `n - 1`. -/
def ceil_log2 (n : Nat) : Nat := bitLength (n - 1)

/-- Line 30 of the source: `range_size = max_val - min_val + 1`. -/
def range_size (min_val max_val : Int) : Int := max_val - min_val + 1

/-- Line 31 of the source: `num_qubits = range_size.bit_length()`
(Python's `bit_length` acts on the absolute value). -/
def num_qubits (min_val max_val : Int) : Nat :=
  bitLength (range_size min_val max_val).natAbs

/-- Outcome of one call to `generator_quantum_number`: a returned integer, a
propagated simulator exception, or exhaustion of the finite draw list (the
real loop would keep drawing). -/
inductive GenResult where
  | ok (n : Int)
  | err (e : String)
  | outOfFuel
deriving DecidableEq, Repr

/-- Lines 34-55 of the source, with the bit source explicit. Each recursive
call consumes the head draw: an `Except.error` aborts the whole call (the
function has no handler, so a simulator exception unwinds through every
recursive frame); an `Except.ok v` is the decoded measurement
`decimal_number`, rejected and redrawn when `decimal_number >= range_size`,
otherwise `min_val + decimal_number` is returned. The unconsumed tail of the
draw list is returned alongside the result. -/
def genAux (min_val max_val : Int) :
    List (Except String Nat) → GenResult × List (Except String Nat)
  | [] => (.outOfFuel, [])
  | .error e :: rest => (.err e, rest)
  | .ok v :: rest =>
    if range_size min_val max_val ≤ (v : Int) then
      genAux min_val max_val rest
    else
      (.ok (min_val + (v : Int)), rest)

/-- The result of `generator_quantum_number` on a given draw sequence. -/
def generator_quantum_number (min_val max_val : Int)
    (draws : List (Except String Nat)) : GenResult :=
  (genAux min_val max_val draws).1

/-- Outcome of the benchmark's sampling loop (lines 60-63): the collected
dataset, a propagated exception, or draw-list exhaustion. -/
inductive BenchResult where
  | ok (dataset : List Int)
  | err (e : String)
  | outOfFuel
deriving DecidableEq, Repr

/-- Lines 60-63 of the source: the benchmark calls
`generator_quantum_number` once per iteration, appending each result;
`benchmark` itself has no handler, so a generation exception propagates. -/
def benchmark (min_val max_val : Int) :
    Nat → List (Except String Nat) → BenchResult × List (Except String Nat)
  | 0, draws => (.ok [], draws)
  | n + 1, draws =>
    match genAux min_val max_val draws with
    | (.ok v, rest) =>
      match benchmark min_val max_val n rest with
      | (.ok vs, rest2) => (.ok (v :: vs), rest2)
      | other => other
    | (.err e, rest) => (.err e, rest)
    | (.outOfFuel, rest) => (.outOfFuel, rest)

/-- Parsed CLI arguments (lines 85-91): `--min`, `--max`, `--image`,
`--benchmark`, `--iterations`. `--qubits` only affects the rendered image
and is omitted. -/
structure Args where
  min : Int
  max : Int
  image : Bool
  benchmark : Bool
  iterations : Nat
deriving DecidableEq, Repr

/-- Observable outcome of one run of the `__main__` block. `exitCode` is
`none` when the run never terminates (draw list exhausted while the real
loop would continue). `bitCalls` counts bit-source invocations (consumed
draws). `errorPrinted` records whether the program printed one of its own
error messages (the invalid-range message or the `except` branch). -/
structure Trace where
  exitCode : Option Nat
  imageDrawn : Bool
  benchmarkRan : Bool
  singleRan : Bool
  bitCalls : Nat
  errorPrinted : Bool
deriving DecidableEq, Repr

/-- Lines 93-110 of the source: `if args.min >= args.max` print and
`exit(1)`; else optionally draw the image; then either run the benchmark (an
uncaught exception there makes Python exit non-zero) or generate a single
number inside `try/except` (a caught exception is printed and the script
falls off the end, exiting 0). -/
def mainRun (a : Args) (draws : List (Except String Nat)) : Trace :=
  if a.max ≤ a.min then
    ⟨some 1, false, false, false, 0, true⟩
  else if a.benchmark then
    match benchmark a.min a.max a.iterations draws with
    | (.ok _, rest) => ⟨some 0, a.image, true, false, draws.length - rest.length, false⟩
    | (.err _, rest) => ⟨some 1, a.image, true, false, draws.length - rest.length, false⟩
    | (.outOfFuel, rest) => ⟨none, a.image, true, false, draws.length - rest.length, false⟩
  else
    match genAux a.min a.max draws with
    | (.ok _, rest) => ⟨some 0, a.image, false, true, draws.length - rest.length, false⟩
    | (.err _, rest) => ⟨some 0, a.image, false, true, draws.length - rest.length, true⟩
    | (.outOfFuel, rest) => ⟨none, a.image, false, true, draws.length - rest.length, false⟩

/-- Characterisation of `bitLengthGo` with enough fuel: for `1 ≤ m ≤ fuel`
the result `k` satisfies `2 ^ (k - 1) ≤ m < 2 ^ k`. -/
theorem bitLengthGo_bounds :
    ∀ fuel m : Nat, 1 ≤ m → m ≤ fuel →
      2 ^ (bitLengthGo fuel m - 1) ≤ m ∧ m < 2 ^ bitLengthGo fuel m := by
  intro fuel
  induction fuel with
  | zero => intro m h1 h2; omega
  | succ fuel ih =>
    intro m h1 h2
    match m with
    | 1 =>
      norm_num [bitLengthGo]
    | m + 2 =>
      obtain ⟨ha, hb⟩ := ih ((m + 2) / 2) (by omega) (by omega)
      have hg1 : 1 ≤ bitLengthGo fuel ((m + 2) / 2) := by
        by_contra hc
        have h0 : bitLengthGo fuel ((m + 2) / 2) = 0 := by omega
        rw [h0, pow_zero] at hb
        omega
      obtain ⟨g, hg⟩ : ∃ g, bitLengthGo fuel ((m + 2) / 2) = g + 1 :=
        ⟨bitLengthGo fuel ((m + 2) / 2) - 1, by omega⟩
      rw [hg] at ha hb
      have hgo : bitLengthGo (fuel + 1) (m + 2) = (g + 1) + 1 := by
        rw [show bitLengthGo (fuel + 1) (m + 2)
              = bitLengthGo fuel ((m + 2) / 2) + 1 from rfl, hg]
      rw [hgo]
      simp only [Nat.add_sub_cancel] at ha ⊢
      have hp1 : (2 : Nat) ^ (g + 1) = 2 * 2 ^ g := by ring
      have hp2 : (2 : Nat) ^ (g + 1 + 1) = 4 * 2 ^ g := by ring
      rw [hp1] at hb
      rw [hp1, hp2]
      constructor <;> omega

/-- For `n ≥ 1`, `bitLength n = k` satisfies `2 ^ (k - 1) ≤ n < 2 ^ k`. -/
theorem bitLength_bounds (n : Nat) (h : 1 ≤ n) :
    2 ^ (bitLength n - 1) ≤ n ∧ n < 2 ^ bitLength n :=
  bitLengthGo_bounds n n h le_rfl

/-- `bitLength` is positive on positive input. -/
theorem bitLength_pos (n : Nat) (h : 1 ≤ n) : 1 ≤ bitLength n := by
  obtain ⟨ha, hb⟩ := bitLength_bounds n h
  by_contra hc
  have h0 : bitLength n = 0 := by omega
  rw [h0] at hb
  simp at hb
  omega

/-- `ceil_log2 n` is the least `k` with `n ≤ 2 ^ k` (for `n ≥ 1`): it
satisfies `n ≤ 2 ^ ceil_log2 n`, and any `k` with `n ≤ 2 ^ k` has
`ceil_log2 n ≤ k`. -/
theorem ceil_log2_spec (n : Nat) (h : 1 ≤ n) :
    n ≤ 2 ^ ceil_log2 n ∧ ∀ k, n ≤ 2 ^ k → ceil_log2 n ≤ k := by
  match n with
  | 1 =>
    refine ⟨by decide, fun k _ => ?_⟩
    have h0 : ceil_log2 1 = 0 := rfl
    omega
  | n + 2 =>
    have he : ceil_log2 (n + 2) = bitLength (n + 1) := rfl
    obtain ⟨ha, hb⟩ := bitLength_bounds (n + 1) (by omega)
    rw [he]
    constructor
    · omega
    · intro k hk
      by_contra hc
      push_neg at hc
      have hk1 : k ≤ bitLength (n + 1) - 1 := by omega
      have hpw : (2 : Nat) ^ k ≤ 2 ^ (bitLength (n + 1) - 1) :=
        Nat.pow_le_pow_right (by omega) hk1
      omega

/-- Step lemma: an empty draw list exhausts the bit source. -/
theorem gen_nil (min_val max_val : Int) :
    generator_quantum_number min_val max_val [] = .outOfFuel := rfl

/-- Step lemma: an exception from the bit source aborts the call at once
(the generator has no handler around the simulator calls). -/
theorem gen_error (min_val max_val : Int) (e : String)
    (rest : List (Except String Nat)) :
    generator_quantum_number min_val max_val (.error e :: rest) = .err e := rfl

/-- Step lemma: a draw `v` with `v ≥ range_size` is discarded and the
generation restarts on the remaining draws (line 53). -/
theorem gen_reject (min_val max_val : Int) (v : Nat)
    (rest : List (Except String Nat))
    (hv : range_size min_val max_val ≤ (v : Int)) :
    generator_quantum_number min_val max_val (.ok v :: rest)
      = generator_quantum_number min_val max_val rest := by
  unfold generator_quantum_number
  simp only [genAux]
  rw [if_pos hv]

/-- Step lemma: a draw `v` with `v < range_size` is accepted and
`min_val + v` is returned (line 55). -/
theorem gen_accept (min_val max_val : Int) (v : Nat)
    (rest : List (Except String Nat))
    (hv : ¬ range_size min_val max_val ≤ (v : Int)) :
    generator_quantum_number min_val max_val (.ok v :: rest)
      = .ok (min_val + (v : Int)) := by
  unfold generator_quantum_number
  simp only [genAux]
  rw [if_neg hv]

/-- C1, counterexample: at the valid range `min_val = 0, max_val = 1` the
code computes `num_qubits = bitLength 2 = 2`, while the claim's
`k = ceil(log2(range_size))` is `1` (the spec's `range_size = 2 → k = 1`
boundary value), so the computed width is not `ceil(log2(range_size))`. -/
theorem C1_counterexample :
    (0 : Int) < 1 ∧ num_qubits 0 1 = 2 ∧
      ceil_log2 (range_size 0 1).natAbs = 1 ∧
      num_qubits 0 1 ≠ ceil_log2 (range_size 0 1).natAbs := by decide

/-- C1, amended: for every valid range the width computed on line 31 is
`bitLength range_size = floor(log2(range_size)) + 1`, the smallest `k` with
`2 ^ k > range_size`; it satisfies `2 ^ (k - 1) ≤ range_size < 2 ^ k`, and
the boundary values are `range_size = 1 → k = 1`, `range_size = 2 → k = 2`,
`range_size = 3 → k = 2`. -/
theorem C1_bit_width_amended (min_val max_val : Int) (h : min_val < max_val) :
    2 ^ (num_qubits min_val max_val - 1) ≤ (range_size min_val max_val).natAbs ∧
    (range_size min_val max_val).natAbs < 2 ^ num_qubits min_val max_val ∧
    bitLength 1 = 1 ∧ bitLength 2 = 2 ∧ bitLength 3 = 2 := by
  have hrs : 1 ≤ (range_size min_val max_val).natAbs := by
    unfold range_size
    omega
  obtain ⟨ha, hb⟩ := bitLength_bounds _ hrs
  exact ⟨ha, hb, by decide, by decide, by decide⟩

/-- C1, witness at `min_val = 0, max_val = 5` (`range_size = 6`, `k = 3`). -/
theorem C1_bit_width_amended_witness :
    2 ^ (num_qubits 0 5 - 1) ≤ (range_size 0 5).natAbs ∧
    (range_size 0 5).natAbs < 2 ^ num_qubits 0 5 ∧
    bitLength 1 = 1 ∧ bitLength 2 = 2 ∧ bitLength 3 = 2 :=
  C1_bit_width_amended 0 5 (by decide)

/-- C2: for every valid range and every draw sequence, any value returned by
`generator_quantum_number` lies in `[min_val, max_val]`. -/
theorem C2_result_in_range (min_val max_val : Int) (h : min_val < max_val)
    (draws : List (Except String Nat)) (n : Int)
    (hres : generator_quantum_number min_val max_val draws = .ok n) :
    min_val ≤ n ∧ n ≤ max_val := by
  induction draws with
  | nil => simp [generator_quantum_number, genAux] at hres
  | cons head tail ih =>
    match head with
    | .error e => simp [generator_quantum_number, genAux] at hres
    | .ok v =>
      by_cases hc : range_size min_val max_val ≤ (v : Int)
      · rw [gen_reject _ _ _ _ hc] at hres
        exact ih hres
      · rw [gen_accept _ _ _ _ hc] at hres
        simp only [GenResult.ok.injEq] at hres
        unfold range_size at hc
        omega

/-- C2, witness: the range `[1, 10]` with the single accepted draw `3`
returns `4`, which lies in the range. -/
theorem C2_result_in_range_witness : (1 : Int) ≤ 4 ∧ (4 : Int) ≤ 10 :=
  C2_result_in_range 1 10 (by decide) [Except.ok 3] 4 (by decide)

/-- C3: an out-of-range draw is discarded whole and the generation restarts
on the remaining draws (the rejected value is never reused or shifted); an
in-range draw `w` returns `min_val + w`; and on `min_val = 1, max_val = 10`
with draw sequence `[11, 3]` the result is `4`. -/
theorem C3_rejection_rule (min_val max_val : Int) (v w : Nat)
    (rest rest2 : List (Except String Nat)) (h : min_val < max_val)
    (hv : range_size min_val max_val ≤ (v : Int))
    (hw : (w : Int) < range_size min_val max_val) :
    generator_quantum_number min_val max_val (.ok v :: rest)
        = generator_quantum_number min_val max_val rest ∧
    generator_quantum_number min_val max_val (.ok w :: rest2)
        = .ok (min_val + (w : Int)) ∧
    generator_quantum_number 1 10 [.ok 11, .ok 3] = .ok 4 :=
  ⟨gen_reject _ _ _ _ hv, gen_accept _ _ _ _ (not_le.mpr hw), by decide⟩

/-- C3, witness: the scenario of the claim itself, `min_val = 1,
max_val = 10`, rejected draw `11`, accepted draw `3`. -/
theorem C3_rejection_rule_witness :
    generator_quantum_number 1 10 (.ok 11 :: [Except.ok 3])
        = generator_quantum_number 1 10 [Except.ok 3] ∧
    generator_quantum_number 1 10 (.ok 3 :: ([] : List (Except String Nat)))
        = .ok (1 + ((3 : Nat) : Int)) ∧
    generator_quantum_number 1 10 [.ok 11, .ok 3] = .ok 4 :=
  C3_rejection_rule 1 10 11 3 [Except.ok 3] [] (by decide) (by decide) (by decide)

/-- C4, counterexample: at the valid range `min_val = 0, max_val = 1` the
code's `num_qubits` is `2`, so the per-draw acceptance probability is
`range_size / 2 ^ k = 2 / 4 = 1 / 2` exactly: `2 * range_size = 2 ^ k`
holds and the claimed strict inequality `2 * range_size > 2 ^ k` fails. -/
theorem C4_counterexample :
    (0 : Int) < 1 ∧ 2 * (range_size 0 1).natAbs = 2 ^ num_qubits 0 1 ∧
      ¬ 2 ^ num_qubits 0 1 < 2 * (range_size 0 1).natAbs := by decide

/-- C4, amended: for every valid range the acceptance probability
`range_size / 2 ^ k` is at least `1 / 2` (as exact integer arithmetic,
`2 * range_size ≥ 2 ^ k`), with equality exactly at power-of-two range
sizes, so the expected number of draws is at most `2`. -/
theorem C4_acceptance_at_least_half (min_val max_val : Int)
    (h : min_val < max_val) :
    2 ^ num_qubits min_val max_val ≤ 2 * (range_size min_val max_val).natAbs := by
  have hrs : 1 ≤ (range_size min_val max_val).natAbs := by
    unfold range_size
    omega
  obtain ⟨ha, hb⟩ := bitLength_bounds _ hrs
  have hk := bitLength_pos _ hrs
  obtain ⟨g, hg⟩ : ∃ g, bitLength (range_size min_val max_val).natAbs = g + 1 :=
    ⟨bitLength (range_size min_val max_val).natAbs - 1, by omega⟩
  unfold num_qubits
  rw [hg] at ha ⊢
  simp only [Nat.add_sub_cancel] at ha
  have hp : (2 : Nat) ^ (g + 1) = 2 * 2 ^ g := by ring
  rw [hp]
  omega

/-- C4, witness at `min_val = 0, max_val = 5`: `2 ^ 3 ≤ 2 * 6`. -/
theorem C4_acceptance_at_least_half_witness :
    2 ^ num_qubits 0 5 ≤ 2 * (range_size 0 5).natAbs :=
  C4_acceptance_at_least_half 0 5 (by decide)

/-- C5: when the CLI arguments have `min >= max`, the `__main__` block
prints the invalid-range message and exits with status `1` before any
sampling, rendering, or bit-source call: the trace shows exit code `1`, no
image drawn, neither generation path run, and zero bit-source calls. -/
theorem C5_invalid_range_rejected (a : Args)
    (draws : List (Except String Nat)) (h : a.max ≤ a.min) :
    mainRun a draws = ⟨some 1, false, false, false, 0, true⟩ := by
  unfold mainRun
  rw [if_pos h]

/-- C5, witness: `min = max = 3` with a mock bit source holding one draw. -/
theorem C5_invalid_range_rejected_witness :
    mainRun ⟨3, 3, false, false, 5⟩ [Except.ok 0]
      = ⟨some 1, false, false, false, 0, true⟩ :=
  C5_invalid_range_rejected ⟨3, 3, false, false, 5⟩ [Except.ok 0] (by decide)

/-- C6, counterexample: at the valid range `min_val = 0, max_val = 1` the
code's bit width is `2`, yet `2 ^ 1 ≥ range_size = 2` already, so the
computed width is not the minimum `k` with `2 ^ k ≥ range_size`. -/
theorem C6_counterexample :
    (0 : Int) < 1 ∧ num_qubits 0 1 = 2 ∧
      (range_size 0 1).natAbs ≤ 2 ^ 1 ∧ ¬ num_qubits 0 1 ≤ 1 := by decide

/-- C6, amended: the bit width used per draw equals
`bitLength (max_val - min_val + 1)` and its value space `2 ^ k` does cover
the range (`2 ^ k ≥ range_size`), but `k` is the least width with
`2 ^ k > range_size` (`2 ^ (k - 1) ≤ range_size < 2 ^ k`), which at
power-of-two range sizes is one more than the minimum width whose value
space is `≥ range_size`. -/
theorem C6_bit_width_covers (min_val max_val : Int) (h : min_val < max_val) :
    num_qubits min_val max_val
        = bitLength (range_size min_val max_val).natAbs ∧
    (range_size min_val max_val).natAbs ≤ 2 ^ num_qubits min_val max_val ∧
    2 ^ (num_qubits min_val max_val - 1) ≤ (range_size min_val max_val).natAbs ∧
    (range_size min_val max_val).natAbs < 2 ^ num_qubits min_val max_val := by
  have hrs : 1 ≤ (range_size min_val max_val).natAbs := by
    unfold range_size
    omega
  obtain ⟨ha, hb⟩ := bitLength_bounds _ hrs
  exact ⟨rfl, le_of_lt hb, ha, hb⟩

/-- C6, witness at `min_val = 1, max_val = 10` (`range_size = 10`,
`k = 4`). -/
theorem C6_bit_width_covers_witness :
    num_qubits 1 10 = bitLength (range_size 1 10).natAbs ∧
    (range_size 1 10).natAbs ≤ 2 ^ num_qubits 1 10 ∧
    2 ^ (num_qubits 1 10 - 1) ≤ (range_size 1 10).natAbs ∧
    (range_size 1 10).natAbs < 2 ^ num_qubits 1 10 :=
  C6_bit_width_covers 1 10 (by decide)

/-- C7: the generator never swallows a bit-source error: after any number
of semantically valid out-of-range draws (its only retry branch), an
exception `e` raised by a bit-source call propagates unchanged to the
caller as the result of the whole call. -/
theorem C7_error_propagation (min_val max_val : Int) (e : String)
    (pre : List Nat) (rest : List (Except String Nat))
    (hpre : ∀ v ∈ pre, range_size min_val max_val ≤ (v : Int)) :
    generator_quantum_number min_val max_val
        (pre.map Except.ok ++ Except.error e :: rest) = .err e := by
  induction pre with
  | nil => rfl
  | cons p ps ih =>
    have hp : range_size min_val max_val ≤ (p : Int) := hpre p (by simp)
    rw [List.map_cons, List.cons_append, gen_reject _ _ _ _ hp]
    exact ih fun v hv => hpre v (by simp [hv])

/-- C7, witness: on the range `[1, 3]`, one rejected draw `5` followed by a
bit-source failure `"boom"` makes the whole call fail with `"boom"`. -/
theorem C7_error_propagation_witness :
    generator_quantum_number 1 3
        ([5].map Except.ok ++ Except.error "boom" :: []) = .err "boom" :=
  C7_error_propagation 1 3 "boom" [5] [] (by decide)

/-- C8: called directly with `min_val = max_val`, the generator has
`range_size = 1`, draws `num_qubits = 1` bit, accepts only the draw `0`
(every draw `≥ 1` is rejected), and therefore every value it can return
equals `min_val`. -/
theorem C8_degenerate_range (min_val : Int)
    (draws : List (Except String Nat)) (n : Int)
    (hres : generator_quantum_number min_val min_val draws = .ok n) :
    range_size min_val min_val = 1 ∧ num_qubits min_val min_val = 1 ∧
      n = min_val := by
  have hr : range_size min_val min_val = 1 := by
    unfold range_size
    ring
  have hq : num_qubits min_val min_val = 1 := by
    unfold num_qubits
    rw [hr]
    rfl
  refine ⟨hr, hq, ?_⟩
  induction draws with
  | nil => simp [generator_quantum_number, genAux] at hres
  | cons head tail ih =>
    match head with
    | .error e => simp [generator_quantum_number, genAux] at hres
    | .ok v =>
      by_cases hc : range_size min_val min_val ≤ (v : Int)
      · rw [gen_reject _ _ _ _ hc] at hres
        exact ih hres
      · rw [gen_accept _ _ _ _ hc] at hres
        simp only [GenResult.ok.injEq] at hres
        rw [hr] at hc
        omega

/-- C8, witness: `min_val = max_val = 7` with the accepted draw `0`
returns `7`. -/
theorem C8_degenerate_range_witness :
    range_size 7 7 = 1 ∧ num_qubits 7 7 = 1 ∧ (7 : Int) = 7 :=
  C8_degenerate_range 7 [Except.ok 0] 7 (by decide)

/-- C9: on a valid range exactly one generation path runs: the benchmark
path exactly when the benchmark flag is set, the single-number path exactly
when it is not. -/
theorem C9_exclusive_generation_paths (a : Args)
    (draws : List (Except String Nat)) (h : a.min < a.max) :
    (mainRun a draws).benchmarkRan = a.benchmark ∧
    (mainRun a draws).singleRan = !a.benchmark := by
  have hlt : ¬ a.max ≤ a.min := by omega
  unfold mainRun
  rw [if_neg hlt]
  cases hb : a.benchmark with
  | true =>
    simp only [if_true]
    rcases hg : benchmark a.min a.max a.iterations draws with ⟨r, rest⟩
    cases r <;> simp
  | false =>
    simp only [Bool.false_eq_true, if_false]
    rcases hg : genAux a.min a.max draws with ⟨r, rest⟩
    cases r <;> simp

/-- C9, witness: with the benchmark flag set on the range `[0, 1]` and no
draws, the benchmark path runs and the single path does not. -/
theorem C9_exclusive_generation_paths_witness :
    (mainRun ⟨0, 1, false, true, 0⟩ []).benchmarkRan
        = (Args.mk 0 1 false true 0).benchmark ∧
    (mainRun ⟨0, 1, false, true, 0⟩ []).singleRan
        = !(Args.mk 0 1 false true 0).benchmark :=
  C9_exclusive_generation_paths ⟨0, 1, false, true, 0⟩ [] (by decide)

/-- C10: in the single-number path (valid range, benchmark flag unset), an
exception raised during generation is caught by the `try/except`, its
message is printed, and the process exits with status `0`. -/
theorem C10_single_path_exits_zero (a : Args)
    (draws : List (Except String Nat)) (e : String)
    (h : a.min < a.max) (hb : a.benchmark = false)
    (herr : generator_quantum_number a.min a.max draws = .err e) :
    (mainRun a draws).exitCode = some 0 ∧
    (mainRun a draws).errorPrinted = true := by
  have hlt : ¬ a.max ≤ a.min := by omega
  unfold mainRun
  rw [if_neg hlt, hb]
  simp only [Bool.false_eq_true, if_false]
  unfold generator_quantum_number at herr
  rcases hg : genAux a.min a.max draws with ⟨r, rest⟩
  cases r <;> simp_all

/-- C10, witness: range `[1, 3]`, benchmark flag unset, the bit source
raising `"boom"`: the trace exits `0` with the message printed. -/
theorem C10_single_path_exits_zero_witness :
    (mainRun ⟨1, 3, false, false, 0⟩ [Except.error "boom"]).exitCode = some 0 ∧
    (mainRun ⟨1, 3, false, false, 0⟩ [Except.error "boom"]).errorPrinted = true :=
  C10_single_path_exits_zero ⟨1, 3, false, false, 0⟩ [Except.error "boom"]
    "boom" (by decide) (by decide) (by decide)
